import Mathlib

/-!
Verification development for the `aichat` fork: a shallow embedding of
`src/client/jules.rs` (the Jules session/polling protocol client) and
`src/builtin.rs` (the builtin tool dispatch), with theorems settling the
spec claims about them.

Modelling conventions:
* JSON values (`serde_json::Value`) are embedded as the inductive `JValue`.
  Indexing a `Value` with a string key (`value["k"]`) yields `Null` when the
  value is not an object or the key is absent (`JValue.getField`); indexing a
  `serde_json::Map` (obtained from `.as_object()`) with an absent key panics,
  which the rendering functions model by returning `none`.
* Machine I/O (the HTTP transport, the file system, process spawning, the
  network) is abstracted into explicit inputs: each remote call's outcome is
  an input value, and the file system is an association list threaded through
  the dispatch function. Error messages produced by the operating system are
  replaced by fixed descriptive strings; error messages produced by the
  repository's own `anyhow!`/`bail!` calls are kept verbatim.
* The `SseHandler` sink is modelled by accumulating the pushed text fragments
  in a list and recording whether `done()` was invoked.
-/

/-- Embedding of `serde_json::Value`. Numbers are restricted to integers,
which covers every number the embedded code produces (`exit_code`). -/
inductive JValue where
  | null : JValue
  | bool : Bool → JValue
  | num : Int → JValue
  | str : String → JValue
  | arr : List JValue → JValue
  | obj : List (String × JValue) → JValue

/-- `value[key]` on a `serde_json::Value`: the field of an object, `Null`
when the key is absent or the value is not an object. -/
def JValue.getField : JValue → String → JValue
  | .obj fields, k =>
    match fields.lookup k with
    | some v => v
    | none => .null
  | _, _ => .null

/-- `value.get(key).is_some()`: whether an object value has the field at all
(present-but-null counts as present, unlike `getField`). -/
def JValue.hasField : JValue → String → Bool
  | .obj fields, k => (fields.lookup k).isSome
  | _, _ => false

/-- `Value::as_str`. -/
def JValue.asStr : JValue → Option String
  | .str s => some s
  | _ => none

/-- `Value::as_array`. -/
def JValue.asArr : JValue → Option (List JValue)
  | .arr l => some l
  | _ => none

/-- `Value::as_object` (the fields of the object, in order). -/
def JValue.asObj : JValue → Option (List (String × JValue))
  | .obj fields => some fields
  | _ => none

namespace Jules

/-- `HashMap::insert` on the association-list model of `SESSION_MAP`:
overwrite the binding for the key, or append a new one. -/
def setAssoc : List (String × String) → String → String → List (String × String)
  | [], k, v => [(k, v)]
  | (k', v') :: rest, k, v =>
    if k' = k then (k, v) :: rest else (k', v') :: setAssoc rest k v

/-- Outcome of one remote HTTP call, supplied as an input to the model:
a transport failure (`reqwest` error, propagated by `?`), a non-success
status (with response body text), a success with parsed JSON body, or a
success whose body fails to parse as JSON. -/
inductive RemoteResp where
  | transportErr : RemoteResp
  | httpError : String → RemoteResp
  | okJson : JValue → RemoteResp
  | okBadJson : RemoteResp

/-- Result of the session-resolution phase of `chat_completions_streaming`
(jules.rs lines 81–146): how many creation / send-message calls were issued,
which session id the send-message call targeted (if any), the session
registry after the phase, and the phase's outcome (the session id to poll,
or the error that aborted the submission). -/
structure SubmitResult where
  createCalls : Nat
  sendCalls : Nat
  sendTarget : Option String
  registry : List (String × String)
  outcome : Except String String

/-- Session resolution, translated from jules.rs lines 81–146. `sessionKey`
is the conversation key (`input.session(..).map(name)`); `reg` is the current
`SESSION_MAP` contents; `createResp` / `sendResp` are the outcomes the remote
service would give to a creation / send-message call. Exactly one of the two
calls is issued, depending on whether the key has a stored session id. -/
def resolveSession (sessionKey : Option String) (reg : List (String × String))
    (createResp : RemoteResp) (sendResp : RemoteResp) : SubmitResult :=
  match sessionKey.bind (fun k => reg.lookup k) with
  | some id =>
    -- send message to the existing session `{api_base}/sessions/{id}:sendMessage`
    match sendResp with
    | .transportErr => ⟨0, 1, some id, reg, .error "send message transport error"⟩
    | .httpError body => ⟨0, 1, some id, reg, .error ("Failed to send message: " ++ body)⟩
    | .okJson _ => ⟨0, 1, some id, reg, .ok id⟩
    | .okBadJson => ⟨0, 1, some id, reg, .ok id⟩
  | none =>
    -- create a new session `POST {api_base}/sessions`
    match createResp with
    | .transportErr => ⟨1, 0, none, reg, .error "create session transport error"⟩
    | .httpError body => ⟨1, 0, none, reg, .error ("Failed to create session: " ++ body)⟩
    | .okBadJson => ⟨1, 0, none, reg, .error "create session body parse error"⟩
    | .okJson body =>
      match (body.getField "name").asStr with
      | none => ⟨1, 0, none, reg, .error "Invalid session response"⟩
      | some name =>
        -- extract the id from `sessions/{id}`: `name.split('/').last().unwrap_or(&name)`
        let id := ((name.splitOn "/").getLast?).getD name
        match sessionKey with
        | some k => ⟨1, 0, none, setAssoc reg k id, .ok id⟩
        | none => ⟨1, 0, none, reg, .ok id⟩

/-- `activity["name"].as_str().unwrap_or("")` — the id an activity is
deduplicated under (jules.rs line 178). -/
def activityId (a : JValue) : String :=
  ((a.getField "name").asStr).getD ""

/-- One plan-step bullet: `format!("- {}\n", step["title"].as_str().unwrap_or(""))`. -/
def renderStep (step : JValue) : String :=
  "- " ++ (((step.getField "title").asStr).getD "") ++ "\n"

/-- Text pushed by the `planGenerated` clause (jules.rs lines 187–196).
`none` models the panic of `plan["steps"]` (indexing a `serde_json::Map`
panics when the key is absent). -/
def planTexts (a : JValue) : Option (List String) :=
  match ((a.getField "planGenerated").getField "plan").asObj with
  | none => some []
  | some plan =>
    match plan.lookup "steps" with
    | none => none
    | some stepsVal =>
      match stepsVal.asArr with
      | none => some ["\n**Plan Generated:**\n", "\n"]
      | some steps => some ("\n**Plan Generated:**\n" :: (steps.map renderStep ++ ["\n"]))

/-- Text pushed by the `progressUpdated` clause (jules.rs lines 198–202).
`none` models the panic of `progress["title"]` / `progress["description"]`
when the key is absent from the map. -/
def progressTexts (a : JValue) : Option (List String) :=
  match (a.getField "progressUpdated").asObj with
  | none => some []
  | some progress =>
    match progress.lookup "title" with
    | none => none
    | some titleVal =>
      match progress.lookup "description" with
      | none => none
      | some descVal =>
        some ["> " ++ (titleVal.asStr.getD "") ++ " " ++ (descVal.asStr.getD "") ++ "\n"]

/-- Text pushed for a single artifact (jules.rs lines 205–215): a fenced bash
block when `bashOutput` is an object (panicking when `command`/`output` are
absent from the map), then a diff placeholder when `changeSet` is an object. -/
def artifactTexts1 (artifact : JValue) : Option (List String) :=
  match (artifact.getField "bashOutput").asObj with
  | none =>
    match (artifact.getField "changeSet").asObj with
    | none => some []
    | some _ => some ["```diff\n[Code Change Applied]\n```\n"]
  | some bash =>
    match bash.lookup "command" with
    | none => none
    | some cmdVal =>
      match bash.lookup "output" with
      | none => none
      | some outVal =>
        let block := "```bash\n$ " ++ (cmdVal.asStr.getD "") ++ "\n" ++
          (outVal.asStr.getD "") ++ "\n```\n"
        match (artifact.getField "changeSet").asObj with
        | none => some [block]
        | some _ => some [block, "```diff\n[Code Change Applied]\n```\n"]

/-- Texts pushed for the artifact list, in listed order; the first panicking
artifact aborts (models the `for artifact in artifacts` loop). -/
def artifactTextsList : List JValue → Option (List String)
  | [] => some []
  | artifact :: rest =>
    match artifactTexts1 artifact with
    | none => none
    | some ts =>
      match artifactTextsList rest with
      | none => none
      | some rs => some (ts ++ rs)

/-- Text pushed by the `artifacts` clause (jules.rs lines 204–216). -/
def artifactsTexts (a : JValue) : Option (List String) :=
  match (a.getField "artifacts").asArr with
  | none => some []
  | some artifacts => artifactTextsList artifacts

/-- All texts one activity pushes to the handler (jules.rs lines 184–216), in
clause order: plan, progress update, artifacts. `none` models a panic in any
clause (which aborts the whole submission). -/
def renderActivity (a : JValue) : Option (List String) :=
  match planTexts a with
  | none => none
  | some ps =>
    match progressTexts a with
    | none => none
    | some qs =>
      match artifactsTexts a with
      | none => none
      | some rs => some (ps ++ qs ++ rs)

/-- Sink-visible state of one polling session: the processed-activity id set
(`processed_activities`, modelled as the list of inserted ids, newest first),
the texts pushed to the handler so far, and whether `handler.done()` ran. -/
structure LoopState where
  processed : List String
  out : List String
  doneCalled : Bool
deriving DecidableEq

/-- Result of processing the activities of one fetched page: continue
polling, stop because a `sessionCompleted` activity was reached, or panic. -/
inductive StepOut where
  | cont : LoopState → StepOut
  | completed : LoopState → StepOut
  | panicked : StepOut
deriving DecidableEq

/-- The `for activity in list.iter().rev()` body (jules.rs lines 177–225),
applied to the activities in processing (oldest-first) order: skip an already
processed id, otherwise mark it processed, render it, and stop successfully
when it carries a `sessionCompleted` field. -/
def processActs : List JValue → LoopState → StepOut
  | [], st => .cont st
  | a :: rest, st =>
    if st.processed.contains (activityId a) then
      processActs rest st
    else
      match renderActivity a with
      | none => .panicked
      | some ts =>
        if a.hasField "sessionCompleted" then
          .completed ⟨activityId a :: st.processed, st.out ++ ts, true⟩
        else
          processActs rest ⟨activityId a :: st.processed, st.out ++ ts, st.doneCalled⟩

/-- Outcome of one `GET .../activities` poll, supplied as an input: transport
failure (propagated by `?`), non-success status (`continue`), body that fails
to parse as JSON (propagated by `?`), or a parsed body. -/
inductive PollResult where
  | transportErr : PollResult
  | httpFail : PollResult
  | jsonErr : PollResult
  | page : JValue → PollResult

/-- How the polling loop ended: `Ok(())`, an `Err` propagated by `?`, or a
panic while rendering. -/
inductive LoopOutcome where
  | ok : LoopOutcome
  | err : String → LoopOutcome
  | panicked : LoopOutcome
deriving DecidableEq

/-- Final state of a polling run: the sink state, the outcome, and how many
list-activities calls were issued. -/
structure LoopResult where
  state : LoopState
  outcome : LoopOutcome
  pollsMade : Nat
deriving DecidableEq

/-- The notice pushed when the iteration cap is hit (jules.rs line 155). -/
def timeoutMsg : String := "\n[Timeout waiting for agent]\n"

/-- Stand-in message for a `reqwest` transport error while listing activities. -/
def transportErrMsg : String := "transport error while listing activities"

/-- Stand-in message for a body that fails to parse while listing activities. -/
def jsonErrMsg : String := "error parsing activities response body"

/-- `max_loops` (jules.rs line 151). -/
def maxLoops : Nat := 600

/-- The polling loop (jules.rs lines 153–227), driven by the stream of poll
outcomes `polls` (indexed by the value of `loop_count` before its increment).
`remaining` counts the loop passes still allowed before the cap check
`loop_count > max_loops` fires: the Rust loop enters its body with
`loop_count = 0, 1, ..., max_loops` (each pass sleeping and polling once) and
the pass after that pushes the timeout notice and breaks, so the top-level
entry point below starts `remaining` at `maxLoops + 1`. The per-pass sleep
has no observable effect in this model and is dropped. -/
def pollLoopGo (polls : Nat → PollResult) :
    Nat → Nat → LoopState → Nat → LoopResult
  | 0, _, st, pollsMade =>
    ⟨⟨st.processed, st.out ++ [timeoutMsg], st.doneCalled⟩, .ok, pollsMade⟩
  | remaining + 1, idx, st, pollsMade =>
    match polls idx with
    | .transportErr => ⟨st, .err transportErrMsg, pollsMade + 1⟩
    | .jsonErr => ⟨st, .err jsonErrMsg, pollsMade + 1⟩
    | .httpFail => pollLoopGo polls remaining (idx + 1) st (pollsMade + 1)
    | .page body =>
      match (body.getField "activities").asArr with
      | none => pollLoopGo polls remaining (idx + 1) st (pollsMade + 1)
      | some pageList =>
        match processActs pageList.reverse st with
        | .panicked => ⟨st, .panicked, pollsMade + 1⟩
        | .completed st2 => ⟨st2, .ok, pollsMade + 1⟩
        | .cont st2 => pollLoopGo polls remaining (idx + 1) st2 (pollsMade + 1)

/-- Initial loop state: empty processed set, nothing pushed, done not called. -/
def initState : LoopState := ⟨[], [], false⟩

/-- The whole polling phase of `chat_completions_streaming`. -/
def pollLoop (polls : Nat → PollResult) : LoopResult :=
  pollLoopGo polls (maxLoops + 1) 0 initState 0

/-- The first character of a string, used to tell rendered fragments apart
from the timeout notice. -/
def firstChar (s : String) : Option Char := s.data.head?

/-- Number of timeout notices among the pushed fragments. -/
def countT (l : List String) : Nat := l.count timeoutMsg

end Jules

namespace Builtin

/-- Substring test on character lists, matching Rust `str::contains` with a
string pattern (the empty pattern matches everywhere). -/
def containsSub (pat : List Char) : List Char → Bool
  | [] => pat.isEmpty
  | c :: rest => pat.isPrefixOf (c :: rest) || containsSub pat rest

/-- Replace the first occurrence of `pat` by `rep`, matching Rust
`str::replacen(pat, rep, 1)`. -/
def replaceFirst (pat rep : List Char) : List Char → List Char
  | [] => if pat.isPrefixOf ([] : List Char) then rep else []
  | c :: rest =>
    if pat.isPrefixOf (c :: rest) then rep ++ (c :: rest).drop pat.length
    else c :: replaceFirst pat rep rest

/-- `crate::function::FunctionDeclaration` as used by builtin.rs: a name, a
description, a JSON-schema `parameters` value, and the `agent` flag. -/
structure FunctionDeclaration where
  name : String
  description : String
  parameters : JValue
  agent : Bool

/-- Schema helper: an object property of type string with a description. -/
def strProp (description : String) : JValue :=
  .obj [("type", .str "string"), ("description", .str description)]

/-- `fs_cat` declaration (builtin.rs lines 11–26). -/
def fsCatDecl : FunctionDeclaration :=
  ⟨"fs_cat", "Read the contents of a file.",
    .obj [("type", .str "object"),
      ("properties", .obj [("path", strProp "The path to the file to read")]),
      ("required", .arr [.str "path"])],
    false⟩

/-- `fs_ls` declaration (builtin.rs lines 27–41); note: no `required` list. -/
def fsLsDecl : FunctionDeclaration :=
  ⟨"fs_ls", "List files in a directory.",
    .obj [("type", .str "object"),
      ("properties", .obj
        [("path", strProp "The path to the directory to list (defaults to current directory)")])],
    false⟩

/-- `fs_mkdir` declaration (builtin.rs lines 42–57). -/
def fsMkdirDecl : FunctionDeclaration :=
  ⟨"fs_mkdir", "Create a directory.",
    .obj [("type", .str "object"),
      ("properties", .obj [("path", strProp "The path to the directory to create")]),
      ("required", .arr [.str "path"])],
    false⟩

/-- `fs_write` declaration (builtin.rs lines 58–77). -/
def fsWriteDecl : FunctionDeclaration :=
  ⟨"fs_write", "Write content to a file.",
    .obj [("type", .str "object"),
      ("properties", .obj [("path", strProp "The path to the file to write"),
        ("contents", strProp "The content to write to the file")]),
      ("required", .arr [.str "path", .str "contents"])],
    false⟩

/-- `fs_patch` declaration (builtin.rs lines 78–101). -/
def fsPatchDecl : FunctionDeclaration :=
  ⟨"fs_patch", "Patch a file by replacing a search string with a replacement string.",
    .obj [("type", .str "object"),
      ("properties", .obj [("path", strProp "The path to the file to patch"),
        ("search", strProp "The string to search for"),
        ("replace", strProp "The string to replace with")]),
      ("required", .arr [.str "path", .str "search", .str "replace"])],
    false⟩

/-- `fs_search` declaration (builtin.rs lines 102–125). -/
def fsSearchDecl : FunctionDeclaration :=
  ⟨"fs_search", "Search for text in files (substring search).",
    .obj [("type", .str "object"),
      ("properties", .obj [("path", strProp "The path to the directory to search in"),
        ("text", strProp "The text to search for"),
        ("file_pattern", strProp "The file pattern to filter by (substring match on filename)")]),
      ("required", .arr [.str "path", .str "text"])],
    false⟩

/-- `command_run` declaration (builtin.rs lines 126–141). -/
def commandRunDecl : FunctionDeclaration :=
  ⟨"command_run", "Run a shell command.",
    .obj [("type", .str "object"),
      ("properties", .obj [("command", strProp "The command to run")]),
      ("required", .arr [.str "command"])],
    false⟩

/-- `web_search` declaration (builtin.rs lines 142–157). -/
def webSearchDecl : FunctionDeclaration :=
  ⟨"web_search", "Search the web using DuckDuckGo Lite.",
    .obj [("type", .str "object"),
      ("properties", .obj [("query", strProp "The query to search for")]),
      ("required", .arr [.str "query"])],
    false⟩

/-- `web_browse` declaration (builtin.rs lines 158–173). -/
def webBrowseDecl : FunctionDeclaration :=
  ⟨"web_browse", "Browse a webpage and return its content as markdown.",
    .obj [("type", .str "object"),
      ("properties", .obj [("url", strProp "The URL to browse")]),
      ("required", .arr [.str "url"])],
    false⟩

/-- `declarations()` (builtin.rs lines 9–175). -/
def declarations : List FunctionDeclaration :=
  [fsCatDecl, fsLsDecl, fsMkdirDecl, fsWriteDecl, fsPatchDecl, fsSearchDecl,
    commandRunDecl, webSearchDecl, webBrowseDecl]

/-- The names the registry declares. -/
def declNames : List String := declarations.map (fun d => d.name)

/-- The required arguments of a declaration, read from its schema. -/
def requiredOf (d : FunctionDeclaration) : List String :=
  match (d.parameters.getField "required").asArr with
  | some l => l.filterMap JValue.asStr
  | none => []

/-- The machine environment `run` executes against. `files` maps a path to
the contents `fs::read_to_string` would return (absent means the read fails);
the remaining fields are oracles for the operating-system and network calls:
`dirList` is `fs::read_dir` (entry name and is-directory flag, `none` on
error), `mkdirOk`/`writeOk` tell whether `create_dir_all`/`fs::write`
succeed, `isWindows` is `cfg!(target_os = "windows")`, `execRun` runs a
process (stdout, stderr, exit code — `none` exit code models termination by
signal, full `none` a spawn failure), `webSearchResults` yields the scraped
(title, href) pairs of the DuckDuckGo page (`none` on any failure),
`webFetch` fetches a URL's text, and `htmlToMd` is the repository's
`crate::utils::html_to_md` (outside the provided sources, uninterpreted).
`walk` is the depth-first list of file paths `visit_dirs` would traverse
under a directory (`none` when some `read_dir` inside it fails). -/
structure Env where
  files : List (String × String)
  dirList : String → Option (List (String × Bool))
  mkdirOk : String → Bool
  writeOk : String → Bool
  isWindows : Bool
  execRun : String → List String → Option (String × String × Option Int)
  webSearchResults : String → Option (List (String × String))
  webFetch : String → Option String
  htmlToMd : String → String
  walk : String → Option (List String)

/-- Replace the file map of an environment (the only state `run` mutates). -/
def Env.withFiles (env : Env) (fs : List (String × String)) : Env :=
  ⟨fs, env.dirList, env.mkdirOk, env.writeOk, env.isWindows, env.execRun,
    env.webSearchResults, env.webFetch, env.htmlToMd, env.walk⟩

/-- The `fs_search` result lines: `visit_dirs` (builtin.rs lines 296–319)
applied to the walked file list — filter by the optional filename pattern,
skip unreadable files, and report `"{path}: Found match"` for each file whose
contents contain the text. -/
def searchResults (env : Env) (text : String) (filePattern : Option String)
    (paths : List String) : List JValue :=
  paths.filterMap (fun p =>
    if (match filePattern with
        | some pat => containsSub pat.data p.data
        | none => true) then
      match env.files.lookup p with
      | some content =>
        if containsSub text.data content.data then some (.str (p ++ ": Found match"))
        else none
      | none => none
    else none)

/-- `run(name, args)` (builtin.rs lines 177–294), with the environment
threaded explicitly: the result is the `Result<Option<Value>>` paired with
the environment after the call (unchanged whenever no write happened). -/
def run (name : String) (args : JValue) (env : Env) :
    Except String (Option JValue) × Env :=
  if name = "fs_cat" then
    match (args.getField "path").asStr with
    | none => (.error "Missing path", env)
    | some path =>
      match env.files.lookup path with
      | none => (.error ("failed to read " ++ path), env)
      | some content => (.ok (some (.obj [("content", .str content)])), env)
  else if name = "fs_ls" then
    let path := ((args.getField "path").asStr).getD "."
    match env.dirList path with
    | none => (.error ("failed to read dir " ++ path), env)
    | some entries =>
      (.ok (some (.obj [("files", .arr (entries.map (fun e =>
        .str (e.1 ++ " (" ++ (if e.2 then "dir" else "file") ++ ")"))))])), env)
  else if name = "fs_mkdir" then
    match (args.getField "path").asStr with
    | none => (.error "Missing path", env)
    | some path =>
      if env.mkdirOk path then (.ok (some (.obj [("success", .bool true)])), env)
      else (.error ("failed to create dir " ++ path), env)
  else if name = "fs_write" then
    match (args.getField "path").asStr with
    | none => (.error "Missing path", env)
    | some path =>
      match (args.getField "contents").asStr with
      | none => (.error "Missing contents", env)
      | some contents =>
        if env.writeOk path then
          (.ok (some (.obj [("success", .bool true)])),
            env.withFiles (Jules.setAssoc env.files path contents))
        else (.error ("failed to write " ++ path), env)
  else if name = "fs_patch" then
    match (args.getField "path").asStr with
    | none => (.error "Missing path", env)
    | some path =>
      match (args.getField "search").asStr with
      | none => (.error "Missing search", env)
      | some search =>
        match (args.getField "replace").asStr with
        | none => (.error "Missing replace", env)
        | some replace =>
          match env.files.lookup path with
          | none => (.error ("failed to read " ++ path), env)
          | some content =>
            if containsSub search.data content.data then
              let newContent : String := ⟨replaceFirst search.data replace.data content.data⟩
              if env.writeOk path then
                (.ok (some (.obj [("success", .bool true)])),
                  env.withFiles (Jules.setAssoc env.files path newContent))
              else (.error ("failed to write " ++ path), env)
            else (.error "Search string not found in file", env)
  else if name = "fs_search" then
    match (args.getField "path").asStr with
    | none => (.error "Missing path", env)
    | some path =>
      match (args.getField "text").asStr with
      | none => (.error "Missing text", env)
      | some text =>
        let filePattern := (args.getField "file_pattern").asStr
        match env.walk path with
        | none => (.error ("failed to walk " ++ path), env)
        | some paths =>
          (.ok (some (.obj [("results", .arr (searchResults env text filePattern paths))])), env)
  else if name = "command_run" then
    match (args.getField "command").asStr with
    | none => (.error "Missing command", env)
    | some command =>
      let cmd := if env.isWindows then "cmd" else "sh"
      let cmdArgs := if env.isWindows then ["/C", command] else ["-c", command]
      match env.execRun cmd cmdArgs with
      | none => (.error ("failed to run " ++ command), env)
      | some outTriple =>
        (.ok (some (.obj [("stdout", .str outTriple.1),
          ("stderr", .str outTriple.2.1),
          ("exit_code", .num (outTriple.2.2.getD 0))])), env)
  else if name = "web_search" then
    match (args.getField "query").asStr with
    | none => (.error "Missing query", env)
    | some query =>
      match env.webSearchResults query with
      | none => (.error "web_search failed", env)
      | some rs =>
        (.ok (some (.obj [("results", .arr (rs.map (fun pair =>
          .obj [("title", .str pair.1.trim), ("url", .str pair.2)])))])), env)
  else if name = "web_browse" then
    match (args.getField "url").asStr with
    | none => (.error "Missing url", env)
    | some url =>
      match env.webFetch url with
      | none => (.error "web_browse failed", env)
      | some text => (.ok (some (.obj [("content", .str (env.htmlToMd text))])), env)
  else
    (.ok none, env)

/-- Whether a dispatch result is an error. -/
def isErr {ε α : Type} : Except ε α → Bool
  | .error _ => true
  | .ok _ => false

end Builtin

/-! Concrete inputs used by the claim witnesses and counterexamples. -/

/-- An activity with id `"y"` carrying a progress update. -/
def actProgressY : JValue :=
  .obj [("name", .str "y"),
    ("progressUpdated", .obj [("title", .str "t"), ("description", .str "u")])]

/-- A bare activity with id `"x"` (renders nothing). -/
def actBareX : JValue := .obj [("name", .str "x")]

/-- An activity with id `"x"` carrying a progress update. -/
def actProgressX : JValue :=
  .obj [("name", .str "x"),
    ("progressUpdated", .obj [("title", .str "t"), ("description", .str "u")])]

/-- An id-less activity carrying a progress update. -/
def actNoIdProgress : JValue :=
  .obj [("progressUpdated", .obj [("title", .str "p"), ("description", .str "q")])]

/-- An id-less activity with an (empty) artifact list — a different payload. -/
def actNoIdArtifacts : JValue := .obj [("artifacts", .arr [])]

/-- An activity with id `"x"` carrying a `sessionCompleted` payload. -/
def actCompletedX : JValue :=
  .obj [("name", .str "x"), ("sessionCompleted", .obj [])]

/-- A page (in listed, newest-first order) whose completion activity shares
its id with an older activity of the same page. -/
def pageDupCompleted : List JValue := [actProgressY, actCompletedX, actBareX]

/-- Whether some activity of `pageDupCompleted` carries `sessionCompleted`. -/
def pageDupCompletedHasCompletion : Bool :=
  pageDupCompleted.any (fun a => a.hasField "sessionCompleted")

/-- Poll stream returning one fixed page forever: a fresh completion activity
listed before (newer than) a progress activity. -/
def pollsOnePage : Nat → Jules.PollResult :=
  fun _ => .page (.obj [("activities", .arr [actProgressY, actCompletedX])])

/-- Poll stream whose every call returns a non-success status. -/
def pollsAllFail : Nat → Jules.PollResult := fun _ => .httpFail

/-- Poll stream whose every call fails at the transport level. -/
def pollsAllTransport : Nat → Jules.PollResult := fun _ => .transportErr

/-- Poll stream: first a non-success status, then transport errors. -/
def pollsMixed : Nat → Jules.PollResult :=
  fun n => if n = 0 then .httpFail else .transportErr

/-- A concrete dispatch environment: one readable file `"f"` containing
`"hello world"`, writes succeeding, everything else failing or empty. -/
def envEx : Builtin.Env :=
  ⟨[("f", "hello world")], fun _ => none, fun _ => false, fun _ => true, false,
    fun _ _ => none, fun _ => none, fun _ => none, fun s => s, fun _ => none⟩

/-- A `fs_patch` argument object whose search string does not occur in the
target file. -/
def argsPatchMiss : JValue :=
  .obj [("path", .str "f"), ("search", .str "zzz"), ("replace", .str "y")]

namespace Jules

lemma contains_cons_of_contains (l : List String) (x y : String)
    (h : l.contains x = true) : (y :: l).contains x = true := by
  simp only [List.contains_cons, h, Bool.or_true]

lemma processActs_append (l₁ l₂ : List JValue) (st : LoopState) :
    processActs (l₁ ++ l₂) st =
      match processActs l₁ st with
      | .cont st₁ => processActs l₂ st₁
      | .completed st₁ => .completed st₁
      | .panicked => .panicked := by
  induction l₁ generalizing st with
  | nil => simp [processActs]
  | cons a rest ih =>
    simp only [List.cons_append, processActs]
    by_cases hmem : st.processed.contains (activityId a) = true
    · simp only [if_pos hmem]
      exact ih st
    · simp only [if_neg hmem]
      rcases hr : renderActivity a with _ | ts
      · rfl
      · by_cases hc : a.hasField "sessionCompleted" = true
        · simp only [if_pos hc]
        · simp only [if_neg hc]
          exact ih _

/-- An activity whose id was already marked processed — whether in the
initial state or by an earlier activity of the same processing sequence — is
skipped: the run is the same as if the activity were absent. -/
lemma processActs_dup (l₁ l₂ : List JValue) (a : JValue) (st : LoopState)
    (h : st.processed.contains (activityId a) = true ∨
      ∃ b ∈ l₁, activityId b = activityId a) :
    processActs (l₁ ++ a :: l₂) st = processActs (l₁ ++ l₂) st := by
  induction l₁ generalizing st with
  | nil =>
    rcases h with h | ⟨b, hb, _⟩
    · simp only [List.nil_append, processActs, if_pos h]
    · exact absurd hb (List.not_mem_nil b)
  | cons c rest ih =>
    simp only [List.cons_append, processActs]
    by_cases hmem : st.processed.contains (activityId c) = true
    · simp only [if_pos hmem]
      apply ih
      rcases h with h | ⟨b, hb, hba⟩
      · exact Or.inl h
      · rcases List.mem_cons.mp hb with rfl | hbt
        · exact Or.inl (hba ▸ hmem)
        · exact Or.inr ⟨b, hbt, hba⟩
    · simp only [if_neg hmem]
      rcases hr : renderActivity c with _ | ts
      · rfl
      · by_cases hc : c.hasField "sessionCompleted" = true
        · simp only [if_pos hc]
        · simp only [if_neg hc]
          apply ih
          rcases h with h | ⟨b, hb, hba⟩
          · exact Or.inl (contains_cons_of_contains _ _ _ h)
          · rcases List.mem_cons.mp hb with rfl | hbt
            · refine Or.inl ?_
              simp only [List.contains_cons, ← hba, beq_self_eq_true, Bool.true_or]
            · exact Or.inr ⟨b, hbt, hba⟩

/-- Running a sequence of fresh, distinct-id, non-completing, non-panicking
activities marks every id processed and pushes the renders in sequence
order. -/
lemma processActs_run_fresh (m : List JValue) : ∀ st : LoopState,
    (∀ a ∈ m, st.processed.contains (activityId a) = false) →
    (m.map activityId).Nodup →
    (∀ a ∈ m, a.hasField "sessionCompleted" = false) →
    (∀ a ∈ m, (renderActivity a).isSome = true) →
    processActs m st = .cont ⟨(m.map activityId).reverse ++ st.processed,
      st.out ++ (m.map (fun a => (renderActivity a).getD [])).flatten, st.doneCalled⟩ := by
  induction m with
  | nil => intro st _ _ _ _; simp [processActs]
  | cons a rest ih =>
    intro st hfresh hnodup hnc hren
    have hfa : st.processed.contains (activityId a) = false :=
      hfresh a (List.mem_cons_self a rest)
    have hfa' : ¬(st.processed.contains (activityId a) = true) := by simpa using hfa
    rcases Option.isSome_iff_exists.mp (hren a (List.mem_cons_self a rest)) with ⟨ts, hts⟩
    have hca : a.hasField "sessionCompleted" = false := hnc a (List.mem_cons_self a rest)
    have hca' : ¬(a.hasField "sessionCompleted" = true) := by simp [hca]
    rw [List.map_cons, List.nodup_cons] at hnodup
    obtain ⟨hnotmem, hnodup'⟩ := hnodup
    have hstep := ih ⟨activityId a :: st.processed, st.out ++ ts, st.doneCalled⟩
      (by
        intro b hb
        have hb1 : st.processed.contains (activityId b) = false :=
          hfresh b (List.mem_cons_of_mem a hb)
        have hb2 : activityId b ≠ activityId a := fun he =>
          hnotmem (he ▸ List.mem_map_of_mem activityId hb)
        simp only [List.contains_cons]
        simp [hb2, by simpa using hb1])
      hnodup'
      (fun b hb => hnc b (List.mem_cons_of_mem a hb))
      (fun b hb => hren b (List.mem_cons_of_mem a hb))
    simp only [processActs, if_neg hfa', hts, if_neg hca', hstep]
    simp [hts, List.append_assoc]

lemma planTexts_mem {a : JValue} {ts : List String} {s : String}
    (h : planTexts a = some ts) (hs : s ∈ ts) :
    s = "\n**Plan Generated:**\n" ∨ s = "\n" ∨ ∃ step, s = renderStep step := by
  cases hpo : ((a.getField "planGenerated").getField "plan").asObj with
  | none =>
    simp only [planTexts, hpo, Option.some.injEq] at h
    subst h
    exact absurd hs (List.not_mem_nil s)
  | some plan =>
    cases hsteps : plan.lookup "steps" with
    | none => simp [planTexts, hpo, hsteps] at h
    | some stepsVal =>
      cases harr : stepsVal.asArr with
      | none =>
        simp only [planTexts, hpo, hsteps, harr, Option.some.injEq] at h
        subst h
        rcases List.mem_cons.mp hs with rfl | hs
        · exact Or.inl rfl
        · rcases List.mem_cons.mp hs with rfl | hs
          · exact Or.inr (Or.inl rfl)
          · exact absurd hs (List.not_mem_nil s)
      | some steps =>
        simp only [planTexts, hpo, hsteps, harr, Option.some.injEq] at h
        subst h
        rcases List.mem_cons.mp hs with rfl | hs
        · exact Or.inl rfl
        · rcases List.mem_append.mp hs with hs1 | hs1
          · rcases List.mem_map.mp hs1 with ⟨step, _, rfl⟩
            exact Or.inr (Or.inr ⟨step, rfl⟩)
          · rcases List.mem_cons.mp hs1 with rfl | hs2
            · exact Or.inr (Or.inl rfl)
            · exact absurd hs2 (List.not_mem_nil s)

lemma progressTexts_mem {a : JValue} {ts : List String} {s : String}
    (h : progressTexts a = some ts) (hs : s ∈ ts) :
    ∃ t d, s = "> " ++ t ++ " " ++ d ++ "\n" := by
  cases hpo : (a.getField "progressUpdated").asObj with
  | none =>
    simp only [progressTexts, hpo, Option.some.injEq] at h
    subst h
    exact absurd hs (List.not_mem_nil s)
  | some progress =>
    cases ht : progress.lookup "title" with
    | none => simp [progressTexts, hpo, ht] at h
    | some titleVal =>
      cases hd : progress.lookup "description" with
      | none => simp [progressTexts, hpo, ht, hd] at h
      | some descVal =>
        simp only [progressTexts, hpo, ht, hd, Option.some.injEq] at h
        subst h
        rcases List.mem_cons.mp hs with rfl | hs
        · exact ⟨_, _, rfl⟩
        · exact absurd hs (List.not_mem_nil s)

lemma artifactTexts1_mem {artifact : JValue} {ts : List String} {s : String}
    (h : artifactTexts1 artifact = some ts) (hs : s ∈ ts) :
    (∃ c o, s = "```bash\n$ " ++ c ++ "\n" ++ o ++ "\n```\n") ∨
      s = "```diff\n[Code Change Applied]\n```\n" := by
  cases hbo : (artifact.getField "bashOutput").asObj with
  | none =>
    cases hco : (artifact.getField "changeSet").asObj with
    | none =>
      simp only [artifactTexts1, hbo, hco, Option.some.injEq] at h
      subst h
      exact absurd hs (List.not_mem_nil s)
    | some cs =>
      simp only [artifactTexts1, hbo, hco, Option.some.injEq] at h
      subst h
      rcases List.mem_cons.mp hs with rfl | hs
      · exact Or.inr rfl
      · exact absurd hs (List.not_mem_nil s)
  | some bash =>
    cases hc : bash.lookup "command" with
    | none => simp [artifactTexts1, hbo, hc] at h
    | some cmdVal =>
      cases ho : bash.lookup "output" with
      | none => simp [artifactTexts1, hbo, hc, ho] at h
      | some outVal =>
        cases hco : (artifact.getField "changeSet").asObj with
        | none =>
          simp only [artifactTexts1, hbo, hc, ho, hco, Option.some.injEq] at h
          subst h
          rcases List.mem_cons.mp hs with rfl | hs
          · exact Or.inl ⟨_, _, rfl⟩
          · exact absurd hs (List.not_mem_nil s)
        | some cs =>
          simp only [artifactTexts1, hbo, hc, ho, hco, Option.some.injEq] at h
          subst h
          rcases List.mem_cons.mp hs with rfl | hs
          · exact Or.inl ⟨_, _, rfl⟩
          · rcases List.mem_cons.mp hs with rfl | hs
            · exact Or.inr rfl
            · exact absurd hs (List.not_mem_nil s)

lemma artifactTextsList_mem {arts : List JValue} {ts : List String} {s : String}
    (h : artifactTextsList arts = some ts) (hs : s ∈ ts) :
    (∃ c o, s = "```bash\n$ " ++ c ++ "\n" ++ o ++ "\n```\n") ∨
      s = "```diff\n[Code Change Applied]\n```\n" := by
  induction arts generalizing ts with
  | nil =>
    simp only [artifactTextsList, Option.some.injEq] at h
    subst h
    exact absurd hs (List.not_mem_nil s)
  | cons artifact rest ih =>
    cases h1 : artifactTexts1 artifact with
    | none => simp [artifactTextsList, h1] at h
    | some ts1 =>
      cases h2 : artifactTextsList rest with
      | none => simp [artifactTextsList, h1, h2] at h
      | some rs =>
        simp only [artifactTextsList, h1, h2, Option.some.injEq] at h
        subst h
        rcases List.mem_append.mp hs with hs1 | hs1
        · exact artifactTexts1_mem h1 hs1
        · exact ih h2 hs1

lemma artifactsTexts_mem {a : JValue} {ts : List String} {s : String}
    (h : artifactsTexts a = some ts) (hs : s ∈ ts) :
    (∃ c o, s = "```bash\n$ " ++ c ++ "\n" ++ o ++ "\n```\n") ∨
      s = "```diff\n[Code Change Applied]\n```\n" := by
  cases harr : (a.getField "artifacts").asArr with
  | none =>
    simp only [artifactsTexts, harr, Option.some.injEq] at h
    subst h
    exact absurd hs (List.not_mem_nil s)
  | some artifacts =>
    simp only [artifactsTexts, harr] at h
    exact artifactTextsList_mem h hs

/-- Every fragment an activity renders has one of six fixed shapes. -/
lemma renderActivity_mem {a : JValue} {ts : List String} {s : String}
    (h : renderActivity a = some ts) (hs : s ∈ ts) :
    s = "\n**Plan Generated:**\n" ∨ s = "\n" ∨ (∃ step, s = renderStep step) ∨
      (∃ t d, s = "> " ++ t ++ " " ++ d ++ "\n") ∨
      (∃ c o, s = "```bash\n$ " ++ c ++ "\n" ++ o ++ "\n```\n") ∨
      s = "```diff\n[Code Change Applied]\n```\n" := by
  cases hps : planTexts a with
  | none => simp [renderActivity, hps] at h
  | some ps =>
    cases hqs : progressTexts a with
    | none => simp [renderActivity, hps, hqs] at h
    | some qs =>
      cases hrs : artifactsTexts a with
      | none => simp [renderActivity, hps, hqs, hrs] at h
      | some rs =>
        simp only [renderActivity, hps, hqs, hrs, Option.some.injEq] at h
        subst h
        rcases List.mem_append.mp hs with hs1 | hs1
        · rcases List.mem_append.mp hs1 with hs2 | hs2
          · rcases planTexts_mem hps hs2 with h1 | h1 | ⟨step, h1⟩
            · exact Or.inl h1
            · exact Or.inr (Or.inl h1)
            · exact Or.inr (Or.inr (Or.inl ⟨step, h1⟩))
          · rcases progressTexts_mem hqs hs2 with ⟨t, d, h1⟩
            exact Or.inr (Or.inr (Or.inr (Or.inl ⟨t, d, h1⟩)))
        · rcases artifactsTexts_mem hrs hs1 with ⟨c, o, h1⟩ | h1
          · exact Or.inr (Or.inr (Or.inr (Or.inr (Or.inl ⟨c, o, h1⟩))))
          · exact Or.inr (Or.inr (Or.inr (Or.inr (Or.inr h1))))

/-- The timeout notice is never among an activity's rendered fragments. -/
lemma render_ne_timeout {a : JValue} {ts : List String}
    (h : renderActivity a = some ts) : timeoutMsg ∉ ts := by
  intro hmem
  rcases renderActivity_mem h hmem with h1 | h1 | ⟨step, h1⟩ | ⟨t, d, h1⟩ | ⟨c, o, h1⟩ | h1
  · exact absurd h1 (by decide)
  · exact absurd h1 (by decide)
  · have h2 : (some '\n' : Option Char) = some '-' := congrArg firstChar h1
    simp at h2
  · have h2 : (some '\n' : Option Char) = some '>' := congrArg firstChar h1
    simp at h2
  · have h2 : (some '\n' : Option Char) = some '`' := congrArg firstChar h1
    simp at h2
  · exact absurd h1 (by decide)

/-- Processing a page whose activities carry no completion signal and render
without panicking continues the loop and pushes no timeout notice. -/
lemma processActs_count (m : List JValue) : ∀ st : LoopState,
    (∀ a ∈ m, a.hasField "sessionCompleted" = false) →
    (∀ a ∈ m, (renderActivity a).isSome = true) →
    ∃ st', processActs m st = .cont st' ∧ countT st'.out = countT st.out := by
  induction m with
  | nil => intro st _ _; exact ⟨st, rfl, rfl⟩
  | cons a rest ih =>
    intro st hnc hren
    simp only [processActs]
    by_cases hmem : st.processed.contains (activityId a) = true
    · simp only [if_pos hmem]
      exact ih st (fun b hb => hnc b (List.mem_cons_of_mem a hb))
        (fun b hb => hren b (List.mem_cons_of_mem a hb))
    · simp only [if_neg hmem]
      rcases Option.isSome_iff_exists.mp (hren a (List.mem_cons_self a rest)) with ⟨ts, hts⟩
      have hca' : ¬(a.hasField "sessionCompleted" = true) := by
        simp [hnc a (List.mem_cons_self a rest)]
      simp only [hts, if_neg hca']
      rcases ih ⟨activityId a :: st.processed, st.out ++ ts, st.doneCalled⟩
        (fun b hb => hnc b (List.mem_cons_of_mem a hb))
        (fun b hb => hren b (List.mem_cons_of_mem a hb)) with ⟨st', heq, hcount⟩
      refine ⟨st', heq, ?_⟩
      rw [hcount]
      simp only [countT, List.count_append]
      have : ts.count timeoutMsg = 0 :=
        List.count_eq_zero.mpr (render_ne_timeout hts)
      simp [this]

/-- A run in which every poll is a non-success status or a page with no
completion signal (and no fatal failure) exhausts its pass budget, polls once
per pass, then pushes exactly one timeout notice and returns `Ok`. -/
lemma pollLoopGo_no_completion (polls : Nat → PollResult)
    (h1 : ∀ n, polls n ≠ .transportErr)
    (h2 : ∀ n, polls n ≠ .jsonErr)
    (h3 : ∀ n body pageL, polls n = .page body →
      (body.getField "activities").asArr = some pageL →
      ∀ a ∈ pageL, a.hasField "sessionCompleted" = false ∧ (renderActivity a).isSome = true) :
    ∀ (r idx p : Nat) (st : LoopState), ∃ stf,
      pollLoopGo polls r idx st p = ⟨stf, .ok, p + r⟩ ∧
        countT stf.out = countT st.out + 1 := by
  intro r
  induction r with
  | zero =>
    intro idx p st
    refine ⟨⟨st.processed, st.out ++ [timeoutMsg], st.doneCalled⟩, rfl, ?_⟩
    simp [countT, List.count_append]
  | succ r ih =>
    intro idx p st
    cases hp : polls idx with
    | transportErr => exact absurd hp (h1 idx)
    | jsonErr => exact absurd hp (h2 idx)
    | httpFail =>
      simp only [pollLoopGo, hp]
      rcases ih (idx + 1) (p + 1) st with ⟨stf, heq, hcount⟩
      have harith : p + 1 + r = p + (r + 1) := by omega
      exact ⟨stf, by rw [heq, harith], hcount⟩
    | page body =>
      simp only [pollLoopGo, hp]
      cases harr : (body.getField "activities").asArr with
      | none =>
        rcases ih (idx + 1) (p + 1) st with ⟨stf, heq, hcount⟩
        have harith : p + 1 + r = p + (r + 1) := by omega
        exact ⟨stf, by rw [heq, harith], hcount⟩
      | some pageL =>
        have hacts := h3 idx body pageL hp harr
        rcases processActs_count pageL.reverse st
          (fun a ha => (hacts a (List.mem_reverse.mp ha)).1)
          (fun a ha => (hacts a (List.mem_reverse.mp ha)).2) with ⟨st', hpeq, hc'⟩
        simp only [hpeq]
        rcases ih (idx + 1) (p + 1) st' with ⟨stf, heq, hcount⟩
        have harith : p + 1 + r = p + (r + 1) := by omega
        exact ⟨stf, by rw [heq, harith], by rw [hcount, hc']⟩

end Jules

/-- Claim C1: a submission whose conversation key has no stored session id
issues exactly one session-creation call and no send-message call; one whose
key has a stored id issues exactly one send-message call against that stored
id and no creation call. -/
theorem c1_session_routing (key : String) (reg : List (String × String))
    (createResp sendResp : Jules.RemoteResp) :
    (reg.lookup key = none →
      (Jules.resolveSession (some key) reg createResp sendResp).createCalls = 1 ∧
      (Jules.resolveSession (some key) reg createResp sendResp).sendCalls = 0) ∧
    (∀ id, reg.lookup key = some id →
      (Jules.resolveSession (some key) reg createResp sendResp).sendCalls = 1 ∧
      (Jules.resolveSession (some key) reg createResp sendResp).createCalls = 0 ∧
      (Jules.resolveSession (some key) reg createResp sendResp).sendTarget = some id) := by
  constructor
  · intro h
    cases createResp with
    | transportErr => simp [Jules.resolveSession, h]
    | httpError b => simp [Jules.resolveSession, h]
    | okBadJson => simp [Jules.resolveSession, h]
    | okJson body =>
      cases hn : (body.getField "name").asStr with
      | none => simp [Jules.resolveSession, h, hn]
      | some nm => simp [Jules.resolveSession, h, hn]
  · intro id h
    cases sendResp <;> simp [Jules.resolveSession, h]

/-- Witness for C1 at a concrete key, registry and responses. -/
theorem c1_session_routing_w :
    (Jules.resolveSession (some "conv") [] .okBadJson .okBadJson).createCalls = 1 ∧
    (Jules.resolveSession (some "conv") [] .okBadJson .okBadJson).sendCalls = 0 ∧
    (Jules.resolveSession (some "conv") [("conv", "42")] .okBadJson .okBadJson).sendCalls = 1 ∧
    (Jules.resolveSession (some "conv") [("conv", "42")] .okBadJson .okBadJson).createCalls = 0 ∧
    (Jules.resolveSession (some "conv") [("conv", "42")] .okBadJson .okBadJson).sendTarget
      = some "42" := by
  have h1 := (c1_session_routing "conv" [] .okBadJson .okBadJson).1 rfl
  have h2 := (c1_session_routing "conv" [("conv", "42")] .okBadJson .okBadJson).2 "42" rfl
  exact ⟨h1.1, h1.2, h2.1, h2.2.1, h2.2.2⟩

/-- Claim C7: a successful creation response without a string `name` field
fails the submission with the malformed-response error and leaves the
registry unchanged — no session id is stored for the conversation key. -/
theorem c7_malformed_create_response (key : String) (reg : List (String × String))
    (body : JValue) (sendResp : Jules.RemoteResp)
    (hkey : reg.lookup key = none)
    (hname : (body.getField "name").asStr = none) :
    Jules.resolveSession (some key) reg (.okJson body) sendResp =
      ⟨1, 0, none, reg, .error "Invalid session response"⟩ ∧
    (Jules.resolveSession (some key) reg (.okJson body) sendResp).registry.lookup key
      = none := by
  have h : Jules.resolveSession (some key) reg (.okJson body) sendResp =
      ⟨1, 0, none, reg, .error "Invalid session response"⟩ := by
    simp [Jules.resolveSession, hkey, hname]
  exact ⟨h, by rw [h]; exact hkey⟩

/-- Witness for C7 at a concrete key and a creation body with no `name`. -/
theorem c7_malformed_create_response_w :
    Jules.resolveSession (some "conv") [] (.okJson (.obj [])) .okBadJson =
      ⟨1, 0, none, [], .error "Invalid session response"⟩ ∧
    (Jules.resolveSession (some "conv") [] (.okJson (.obj [])) .okBadJson).registry.lookup "conv"
      = none :=
  c7_malformed_create_response "conv" [] (.obj []) .okBadJson rfl rfl

/-- Claim C5: within one polling session, only the first activity bearing an
id produces output — a later activity with the same id, in the same page run
or already marked processed from an earlier page, is skipped and the run is
identical to the run without it. -/
theorem c5_dedup_renders_once (st : Jules.LoopState) (l₁ l₂ l₃ : List JValue)
    (a₁ a₂ : JValue) :
    (Jules.activityId a₂ = Jules.activityId a₁ →
      Jules.processActs (l₁ ++ a₁ :: (l₂ ++ a₂ :: l₃)) st =
        Jules.processActs (l₁ ++ a₁ :: (l₂ ++ l₃)) st) ∧
    (st.processed.contains (Jules.activityId a₂) = true →
      Jules.processActs (l₂ ++ a₂ :: l₃) st = Jules.processActs (l₂ ++ l₃) st) := by
  constructor
  · intro h
    have hmem : a₁ ∈ l₁ ++ a₁ :: l₂ := by simp
    have hd := Jules.processActs_dup (l₁ ++ a₁ :: l₂) l₃ a₂ st (Or.inr ⟨a₁, hmem, h.symm⟩)
    simpa [List.append_assoc] using hd
  · intro h
    exact Jules.processActs_dup l₂ l₃ a₂ st (Or.inl h)

/-- Witness for C5: a same-page duplicate id and a cross-page duplicate id
both leave the run unchanged. -/
theorem c5_dedup_renders_once_w :
    Jules.processActs [actProgressX, actBareX] Jules.initState =
      Jules.processActs [actProgressX] Jules.initState ∧
    Jules.processActs [actBareX] ⟨["x"], [], false⟩ =
      Jules.processActs [] ⟨["x"], [], false⟩ := by
  constructor
  · exact (c5_dedup_renders_once Jules.initState [] [] [] actProgressX actBareX).1 rfl
  · exact (c5_dedup_renders_once ⟨["x"], [], false⟩ [] [] [] actProgressX actBareX).2
      (by decide)

/-- Claim C10: an activity whose `name` field is missing or not a string gets
the empty-string id, so all id-less activities deduplicate to one entry: any
id-less activity after the first is skipped even with a different payload. -/
theorem c10_idless_dedup (st : Jules.LoopState) (l₁ l₂ l₃ : List JValue)
    (a₁ a₂ : JValue)
    (h₁ : (a₁.getField "name").asStr = none)
    (h₂ : (a₂.getField "name").asStr = none) :
    Jules.activityId a₁ = "" ∧ Jules.activityId a₂ = "" ∧
    Jules.processActs (l₁ ++ a₁ :: (l₂ ++ a₂ :: l₃)) st =
      Jules.processActs (l₁ ++ a₁ :: (l₂ ++ l₃)) st := by
  have e₁ : Jules.activityId a₁ = "" := by simp [Jules.activityId, h₁]
  have e₂ : Jules.activityId a₂ = "" := by simp [Jules.activityId, h₂]
  refine ⟨e₁, e₂, ?_⟩
  have hmem : a₁ ∈ l₁ ++ a₁ :: l₂ := by simp
  have hd := Jules.processActs_dup (l₁ ++ a₁ :: l₂) l₃ a₂ st
    (Or.inr ⟨a₁, hmem, by rw [e₁, e₂]⟩)
  simpa [List.append_assoc] using hd

/-- Witness for C10 at two id-less activities with different payloads. -/
theorem c10_idless_dedup_w :
    Jules.activityId actNoIdProgress = "" ∧ Jules.activityId actNoIdArtifacts = "" ∧
    Jules.processActs [actNoIdProgress, actNoIdArtifacts] Jules.initState =
      Jules.processActs [actNoIdProgress] Jules.initState :=
  c10_idless_dedup Jules.initState [] [] [] actNoIdProgress actNoIdArtifacts rfl rfl

/-- Claim C6: a fetched page of fresh, distinct-id, non-completing activities
is processed and rendered in exactly the reverse of its listed order — every
listed id is marked processed and the pushed output is the concatenation of
the renders over the reversed page. -/
theorem c6_reverse_order (pageL : List JValue) (st : Jules.LoopState)
    (hfresh : ∀ a ∈ pageL, st.processed.contains (Jules.activityId a) = false)
    (hnodup : (pageL.map Jules.activityId).Nodup)
    (hnc : ∀ a ∈ pageL, a.hasField "sessionCompleted" = false)
    (hren : ∀ a ∈ pageL, (Jules.renderActivity a).isSome = true) :
    Jules.processActs pageL.reverse st =
      .cont ⟨pageL.map Jules.activityId ++ st.processed,
        st.out ++ (pageL.reverse.map (fun a => (Jules.renderActivity a).getD [])).flatten,
        st.doneCalled⟩ := by
  have h := Jules.processActs_run_fresh pageL.reverse st
    (fun a ha => hfresh a (List.mem_reverse.mp ha))
    (by rw [List.map_reverse]; exact List.nodup_reverse.mpr hnodup)
    (fun a ha => hnc a (List.mem_reverse.mp ha))
    (fun a ha => hren a (List.mem_reverse.mp ha))
  rw [h]
  simp [List.map_reverse]

/-- Counterexample to C2 as stated: `pageDupCompleted` contains a
`sessionCompleted` activity, yet processing the page does not halt there —
the completed activity's id was already processed, so it is skipped, the
activity positioned after it is still rendered (the `"> t u\n"` fragment
comes from the later activity), the done signal is never invoked, and the
loop would continue polling. -/
theorem c2_completion_skipped_cex :
    pageDupCompletedHasCompletion = true ∧
    Jules.processActs pageDupCompleted.reverse Jules.initState =
      .cont ⟨["y", "x"], ["> t u\n"], false⟩ := by
  constructor
  · decide
  · decide

/-- Claim C2 (amended): when the oldest-first scan reaches a not-yet-processed
activity carrying a `sessionCompleted` payload (its own rendering
succeeding), that activity is the last one processed: its fragments are
pushed, the done signal is invoked, nothing after it in the processing order
is processed or rendered, and the loop returns success with this poll. An
already-processed id carrying `sessionCompleted` is skipped like any
duplicate. -/
theorem c2_completion_halts (polls : Nat → Jules.PollResult) (r idx p : Nat)
    (st st₁ : Jules.LoopState) (body : JValue) (pageL l₁ l₂ : List JValue) (a : JValue)
    (ts : List String)
    (hpoll : polls idx = .page body)
    (hacts : (body.getField "activities").asArr = some pageL)
    (horder : pageL.reverse = l₁ ++ a :: l₂)
    (hl₁ : Jules.processActs l₁ st = .cont st₁)
    (hfresh : st₁.processed.contains (Jules.activityId a) = false)
    (hren : Jules.renderActivity a = some ts)
    (hcomp : a.hasField "sessionCompleted" = true) :
    Jules.pollLoopGo polls (r + 1) idx st p =
      ⟨⟨Jules.activityId a :: st₁.processed, st₁.out ++ ts, true⟩, .ok, p + 1⟩ := by
  have hfresh' : ¬(st₁.processed.contains (Jules.activityId a) = true) := by
    simpa using hfresh
  have hstep : Jules.processActs (l₁ ++ a :: l₂) st =
      .completed ⟨Jules.activityId a :: st₁.processed, st₁.out ++ ts, true⟩ := by
    rw [Jules.processActs_append, hl₁]
    simp only [Jules.processActs, if_neg hfresh', hren, if_pos hcomp]
  simp only [Jules.pollLoopGo, hpoll, hacts, horder, hstep]

/-- Witness for the amended C2: the completed activity ends the run as soon
as it is reached, and the newer activity listed before it is never rendered. -/
theorem c2_completion_halts_w :
    Jules.pollLoopGo pollsOnePage 1 0 Jules.initState 0 =
      ⟨⟨["x"], [], true⟩, .ok, 1⟩ :=
  c2_completion_halts pollsOnePage 0 0 0 Jules.initState Jules.initState
    (.obj [("activities", .arr [actProgressY, actCompletedX])])
    [actProgressY, actCompletedX] [] [actProgressY] actCompletedX []
    rfl rfl rfl rfl (by decide) rfl rfl

set_option maxRecDepth 40000 in
/-- Counterexample to C3 as stated: with every poll returning a non-success
status (so no completion signal is ever observed), the loop performs 601
polling iterations — more than the claimed 600 — before pushing the single
timeout notice and returning success. -/
theorem c3_overcount_cex :
    Jules.pollLoop pollsAllFail = ⟨⟨[], [Jules.timeoutMsg], false⟩, .ok, 601⟩ ∧
    600 < (Jules.pollLoop pollsAllFail).pollsMade := by
  constructor
  · rfl
  · decide

/-- Claim C3 (amended): in every run whose polls are all non-fatal (no
transport or body-parse failure) and yield no `sessionCompleted` activity and
no rendering panic, the loop performs exactly 601 polling iterations — the
cap check `loop_count > 600` admits counts 0 through 600 — then pushes
exactly one timeout notice and returns success. -/
theorem c3_timeout_behavior (polls : Nat → Jules.PollResult)
    (h1 : ∀ n, polls n ≠ .transportErr)
    (h2 : ∀ n, polls n ≠ .jsonErr)
    (h3 : ∀ n body pageL, polls n = .page body →
      (body.getField "activities").asArr = some pageL →
      ∀ a ∈ pageL, a.hasField "sessionCompleted" = false ∧
        (Jules.renderActivity a).isSome = true) :
    (Jules.pollLoop polls).outcome = .ok ∧
    (Jules.pollLoop polls).pollsMade = 601 ∧
    Jules.countT (Jules.pollLoop polls).state.out = 1 := by
  rcases Jules.pollLoopGo_no_completion polls h1 h2 h3
    (Jules.maxLoops + 1) 0 0 Jules.initState with ⟨stf, heq, hc⟩
  unfold Jules.pollLoop
  rw [heq]
  refine ⟨rfl, by simp [Jules.maxLoops], ?_⟩
  simpa [Jules.countT, Jules.initState] using hc

/-- Witness for the amended C3 at the all-non-success poll stream. -/
theorem c3_timeout_behavior_w :
    (Jules.pollLoop pollsAllFail).outcome = .ok ∧
    (Jules.pollLoop pollsAllFail).pollsMade = 601 ∧
    Jules.countT (Jules.pollLoop pollsAllFail).state.out = 1 :=
  c3_timeout_behavior pollsAllFail
    (fun _ h => Jules.PollResult.noConfusion h)
    (fun _ h => Jules.PollResult.noConfusion h)
    (fun _ _ _ h => Jules.PollResult.noConfusion h)

/-- Counterexample to C4 as stated: a transport error during activity listing
is not absorbed — the very first failing poll aborts the submission with an
error instead of continuing to the next iteration. -/
theorem c4_transport_fatal_cex :
    Jules.pollLoop pollsAllTransport =
      ⟨Jules.initState, .err Jules.transportErrMsg, 1⟩ := rfl

/-- Claim C4 (amended): a non-success HTTP status while listing activities is
non-fatal — that iteration's processing is skipped and the loop continues
with the next pass — but a transport error is fatal: it aborts the
submission with an error after that poll. -/
theorem c4_poll_failure_handling (polls : Nat → Jules.PollResult) (r idx p : Nat)
    (st : Jules.LoopState) :
    (polls idx = .httpFail →
      Jules.pollLoopGo polls (r + 1) idx st p =
        Jules.pollLoopGo polls r (idx + 1) st (p + 1)) ∧
    (polls idx = .transportErr →
      Jules.pollLoopGo polls (r + 1) idx st p =
        ⟨st, .err Jules.transportErrMsg, p + 1⟩) := by
  constructor
  · intro h
    simp only [Jules.pollLoopGo, h]
  · intro h
    simp only [Jules.pollLoopGo, h]

/-- Witness for the amended C4: the non-success poll is skipped and the loop
goes on; the transport-error poll aborts with an error. -/
theorem c4_poll_failure_handling_w :
    Jules.pollLoopGo pollsMixed 3 0 Jules.initState 0 =
      Jules.pollLoopGo pollsMixed 2 1 Jules.initState 1 ∧
    Jules.pollLoopGo pollsMixed 2 1 Jules.initState 1 =
      ⟨Jules.initState, .err Jules.transportErrMsg, 2⟩ :=
  ⟨(c4_poll_failure_handling pollsMixed 2 0 0 Jules.initState).1 rfl,
    (c4_poll_failure_handling pollsMixed 1 1 1 Jules.initState).2 rfl⟩

/-- Witness for C6 at a concrete two-activity page. -/
theorem c6_reverse_order_w :
    Jules.processActs [actProgressY, actBareX].reverse Jules.initState =
      .cont ⟨[actProgressY, actBareX].map Jules.activityId ++ Jules.initState.processed,
        Jules.initState.out ++
          ([actProgressY, actBareX].reverse.map
            (fun a => (Jules.renderActivity a).getD [])).flatten,
        Jules.initState.doneCalled⟩ :=
  c6_reverse_order [actProgressY, actBareX] Jules.initState
    (by decide) (by decide) (by decide) (by decide)

/-- Counterexample to C8 as stated: dispatching a name unknown to the
registry does not fail — it returns `Ok(None)` with the environment
untouched. -/
theorem c8_unknown_name_cex :
    ("frobnicate" ∉ Builtin.declNames) ∧
    Builtin.run "frobnicate" (.obj []) envEx = (Except.ok none, envEx) :=
  ⟨by decide, rfl⟩

/-- Claim C8 (amended): dispatching a name unknown to the registry returns
`Ok(None)` — no error — while for every declared function, a required
argument missing from `args` (or present but not a string) makes the call
fail with an error. -/
theorem c8_dispatch_contract (name : String) (args : JValue) (env : Builtin.Env) :
    (name ∉ Builtin.declNames → Builtin.run name args env = (Except.ok none, env)) ∧
    (∀ d ∈ Builtin.declarations, d.name = name →
      ∀ req ∈ Builtin.requiredOf d, (args.getField req).asStr = none →
      Builtin.isErr (Builtin.run name args env).1 = true) := by
  constructor
  · intro h
    have h' : ¬(name = "fs_cat" ∨ name = "fs_ls" ∨ name = "fs_mkdir" ∨ name = "fs_write" ∨
        name = "fs_patch" ∨ name = "fs_search" ∨ name = "command_run" ∨
        name = "web_search" ∨ name = "web_browse") := by
      intro hc
      apply h
      show name ∈ Builtin.declNames
      have he : Builtin.declNames = ["fs_cat", "fs_ls", "fs_mkdir", "fs_write", "fs_patch",
        "fs_search", "command_run", "web_search", "web_browse"] := rfl
      rw [he]
      rcases hc with rfl | rfl | rfl | rfl | rfl | rfl | rfl | rfl | rfl <;> simp
    push_neg at h'
    obtain ⟨h1, h2, h3, h4, h5, h6, h7, h8, h9⟩ := h'
    simp only [Builtin.run, if_neg h1, if_neg h2, if_neg h3, if_neg h4, if_neg h5,
      if_neg h6, if_neg h7, if_neg h8, if_neg h9]
  · intro d hd hname req hreq habs
    simp only [Builtin.declarations, List.mem_cons, List.not_mem_nil, or_false] at hd
    rcases hd with rfl | rfl | rfl | rfl | rfl | rfl | rfl | rfl | rfl
    · -- fs_cat
      subst hname
      have he : Builtin.requiredOf Builtin.fsCatDecl = ["path"] := rfl
      rw [he] at hreq
      have : req = "path" := by simpa using hreq
      subst this
      have hn : Builtin.fsCatDecl.name = "fs_cat" := rfl
      rw [hn]
      simp [Builtin.run, habs, Builtin.isErr]
    · -- fs_ls: no required arguments
      subst hname
      have he : Builtin.requiredOf Builtin.fsLsDecl = [] := rfl
      rw [he] at hreq
      exact absurd hreq (List.not_mem_nil req)
    · -- fs_mkdir
      subst hname
      have he : Builtin.requiredOf Builtin.fsMkdirDecl = ["path"] := rfl
      rw [he] at hreq
      have : req = "path" := by simpa using hreq
      subst this
      have hn : Builtin.fsMkdirDecl.name = "fs_mkdir" := rfl
      rw [hn]
      simp [Builtin.run, habs, Builtin.isErr]
    · -- fs_write
      subst hname
      have he : Builtin.requiredOf Builtin.fsWriteDecl = ["path", "contents"] := rfl
      rw [he] at hreq
      have hn : Builtin.fsWriteDecl.name = "fs_write" := rfl
      rw [hn]
      have : req = "path" ∨ req = "contents" := by simpa using hreq
      rcases this with rfl | rfl
      · simp [Builtin.run, habs, Builtin.isErr]
      · rcases hpath : (args.getField "path").asStr with _ | pval
        · simp [Builtin.run, hpath, Builtin.isErr]
        · simp [Builtin.run, hpath, habs, Builtin.isErr]
    · -- fs_patch
      subst hname
      have he : Builtin.requiredOf Builtin.fsPatchDecl = ["path", "search", "replace"] := rfl
      rw [he] at hreq
      have hn : Builtin.fsPatchDecl.name = "fs_patch" := rfl
      rw [hn]
      have : req = "path" ∨ req = "search" ∨ req = "replace" := by simpa using hreq
      rcases this with rfl | rfl | rfl
      · simp [Builtin.run, habs, Builtin.isErr]
      · rcases hpath : (args.getField "path").asStr with _ | pval
        · simp [Builtin.run, hpath, Builtin.isErr]
        · simp [Builtin.run, hpath, habs, Builtin.isErr]
      · rcases hpath : (args.getField "path").asStr with _ | pval
        · simp [Builtin.run, hpath, Builtin.isErr]
        · rcases hsearch : (args.getField "search").asStr with _ | sval
          · simp [Builtin.run, hpath, hsearch, Builtin.isErr]
          · simp [Builtin.run, hpath, hsearch, habs, Builtin.isErr]
    · -- fs_search
      subst hname
      have he : Builtin.requiredOf Builtin.fsSearchDecl = ["path", "text"] := rfl
      rw [he] at hreq
      have hn : Builtin.fsSearchDecl.name = "fs_search" := rfl
      rw [hn]
      have : req = "path" ∨ req = "text" := by simpa using hreq
      rcases this with rfl | rfl
      · simp [Builtin.run, habs, Builtin.isErr]
      · rcases hpath : (args.getField "path").asStr with _ | pval
        · simp [Builtin.run, hpath, Builtin.isErr]
        · simp [Builtin.run, hpath, habs, Builtin.isErr]
    · -- command_run
      subst hname
      have he : Builtin.requiredOf Builtin.commandRunDecl = ["command"] := rfl
      rw [he] at hreq
      have : req = "command" := by simpa using hreq
      subst this
      have hn : Builtin.commandRunDecl.name = "command_run" := rfl
      rw [hn]
      simp [Builtin.run, habs, Builtin.isErr]
    · -- web_search
      subst hname
      have he : Builtin.requiredOf Builtin.webSearchDecl = ["query"] := rfl
      rw [he] at hreq
      have : req = "query" := by simpa using hreq
      subst this
      have hn : Builtin.webSearchDecl.name = "web_search" := rfl
      rw [hn]
      simp [Builtin.run, habs, Builtin.isErr]
    · -- web_browse
      subst hname
      have he : Builtin.requiredOf Builtin.webBrowseDecl = ["url"] := rfl
      rw [he] at hreq
      have : req = "url" := by simpa using hreq
      subst this
      have hn : Builtin.webBrowseDecl.name = "web_browse" := rfl
      rw [hn]
      simp [Builtin.run, habs, Builtin.isErr]

/-- Witness for the amended C8: `fs_write` with the required `contents`
argument missing fails with an error. -/
theorem c8_dispatch_contract_w :
    Builtin.isErr (Builtin.run "fs_write" (.obj [("path", .str "f")]) envEx).1 = true :=
  (c8_dispatch_contract "fs_write" (.obj [("path", .str "f")]) envEx).2
    Builtin.fsWriteDecl (by simp [Builtin.declarations]) rfl
    "contents" (by decide) rfl

/-- Claim C9: an `fs_patch` call whose search string does not occur in the
target file's contents fails with the `"Search string not found in file"`
error and performs no write — the environment is returned unchanged. -/
theorem c9_patch_search_absent (args : JValue) (env : Builtin.Env)
    (p s rep content : String)
    (hp : (args.getField "path").asStr = some p)
    (hs : (args.getField "search").asStr = some s)
    (hr : (args.getField "replace").asStr = some rep)
    (hfile : env.files.lookup p = some content)
    (habsent : Builtin.containsSub s.data content.data = false) :
    Builtin.run "fs_patch" args env =
      (Except.error "Search string not found in file", env) := by
  simp [Builtin.run, hp, hs, hr, hfile, habsent]

/-- Witness for C9 at a concrete file and a search string absent from it. -/
theorem c9_patch_search_absent_w :
    Builtin.run "fs_patch" argsPatchMiss envEx =
      (Except.error "Search string not found in file", envEx) :=
  c9_patch_search_absent argsPatchMiss envEx "f" "zzz" "y" "hello world"
    rfl rfl rfl rfl (by decide)
